import Mathlib

/-!
Shallow embedding of `dashboard.py` (Dashboard-Agro): the contract data model,
the pandas-style normalization (`preparar_dados`), the sidebar filter
construction and application (`renderizar_filtros`), the aggregations behind
the consolidated table, the summary metric, the two charts, the detail table,
and the currency formatter fallback.  Pandas mechanics that the claims depend
on are modelled explicitly: a column exists in a normalized frame iff some
record carries the field; `isin` on a NaN cell is false; `groupby` sorts its
keys ascending and drops NaN keys; `sum`/`count` aggregation skips NaN values;
`sorted` over a column that mixes strings with NaN raises TypeError; indexing
a missing column raises KeyError; `astype(int)` on a column containing NaN
raises.  Raised exceptions are modelled with `Except`.
-/

/-- Calendar date as produced by the datetime conversion: year, and the month
stored 0-based in a `Fin 12` (month number is `val + 1`).  Days play no role in
any grouping of the dashboard and are omitted. -/
structure Date where
  year : Nat
  month : Fin 12
deriving DecidableEq

/-- Splitting of a character list at every dash, the shape test of the
ISO-like date format. -/
def splitOnDash : List Char → List (List Char)
  | [] => [[]]
  | c :: rest =>
    match splitOnDash rest with
    | [] => [[]]
    | g :: gs => if c = '-' then [] :: g :: gs else (c :: g) :: gs

/-- Digit-wise numeric reading of a character group. -/
def charsToNatAux : List Char → Nat → Option Nat
  | [], acc => some acc
  | c :: rest, acc =>
    if c.isDigit then charsToNatAux rest (acc * 10 + (c.toNat - 48)) else none

/-- Numeric reading of a non-empty all-digit character group. -/
def charsToNat? (l : List Char) : Option Nat :=
  match l with
  | [] => none
  | _ => charsToNatAux l 0

/-- Pandas-style date parse, `pd.to_datetime` with coercion, restricted to the
ISO-like `YYYY-MM-DD` shape the data files use: an unparseable string yields
`none` (NaT) instead of raising. -/
def parseDate (s : String) : Option Date :=
  match splitOnDash s.data with
  | [y, m, d] =>
    match charsToNat? y, charsToNat? m, charsToNat? d with
    | some yn, some mn, some dn =>
      if h : 1 ≤ mn ∧ mn ≤ 12 then
        if 1 ≤ dn ∧ dn ≤ 31 then some ⟨yn, ⟨mn - 1, by omega⟩⟩ else none
      else none
    | _, _, _ => none
  | _ => none

/-- One raw contract object of the JSON array `contratos`; every field is
optional at this level, `none` modelling an absent key. -/
structure RawRec where
  socioResponsavel : Option String := none
  banco : Option String := none
  tipoContrato : Option String := none
  numeroContrato : Option String := none
  valorTotal : Option ℚ := none
  dataContratacao : Option String := none
  vencimentoContrato : Option String := none

/-- One row of the normalized frame `self.contratos` after `preparar_dados`:
the date columns hold the `to_datetime` result, where `some none` is a cell
that coerced to NaT. -/
structure Rec where
  socioResponsavel : Option String
  banco : Option String
  tipoContrato : Option String
  numeroContrato : Option String
  valorTotal : Option ℚ
  dataContratacao : Option (Option Date)
  vencimentoContrato : Option (Option Date)
deriving DecidableEq

/-- Field-wise normalization of one raw record: `pd.json_normalize` keeps every
record and every field; the two date columns go through the coercing parse. -/
def normalizeRec (w : RawRec) : Rec :=
  { socioResponsavel := w.socioResponsavel
    banco := w.banco
    tipoContrato := w.tipoContrato
    numeroContrato := w.numeroContrato
    valorTotal := w.valorTotal
    dataContratacao := w.dataContratacao.map parseDate
    vencimentoContrato := w.vencimentoContrato.map parseDate }

/-- The normalized frame `self.contratos`. -/
structure Frame where
  rows : List Rec
deriving DecidableEq

/-- A column exists in the normalized frame iff at least one record carries the
field (pandas json_normalize builds the column set as the union of keys). -/
def Frame.hasSocio (c : Frame) : Bool := c.rows.any (fun r => r.socioResponsavel.isSome)

/-- Presence of the `banco` column, the lender dimension of the dataset. -/
def Frame.hasBanco (c : Frame) : Bool := c.rows.any (fun r => r.banco.isSome)

/-- Presence of the `tipoContrato` column. -/
def Frame.hasTipo (c : Frame) : Bool := c.rows.any (fun r => r.tipoContrato.isSome)

/-- Presence of the `valorTotal` column. -/
def Frame.hasValor (c : Frame) : Bool := c.rows.any (fun r => r.valorTotal.isSome)

/-- Presence of the `dataContratacao` column, the year dimension of the
dataset; a cell that coerced to NaT still witnesses the column. -/
def Frame.hasData (c : Frame) : Bool := c.rows.any (fun r => r.dataContratacao.isSome)

/-- Presence of the `vencimentoContrato` column. -/
def Frame.hasVenc (c : Frame) : Bool := c.rows.any (fun r => r.vencimentoContrato.isSome)

/-- Models `Dashboard.preparar_dados` together with the `carregar_dados`
hand-off: when the loaded object carries the `contratos` key its records are
normalized one for one (no record is dropped and no skip count exists in the
code); otherwise the frame stays empty. -/
def preparar_dados (dados : Option (List RawRec)) : Frame :=
  { rows := (dados.getD []).map normalizeRec }

/-- Errors raised by the pandas operations the dashboard performs. -/
inductive PdError where
  | keyError
  | typeError
  | valueError
deriving DecidableEq

/-- Ascending duplicate-free listing of a multiset of values: the model of
`sorted(column.unique())` on a clean column. -/
def sortedDedup {α : Type} [LinearOrder α] [DecidableEq α] (l : List α) : List α :=
  l.dedup.insertionSort (fun a b => a ≤ b)

/-- Model of `sorted(self.contratos["socioResponsavel"].unique())`: the column
is indexed unconditionally, so a missing column raises KeyError; a column in
which NaN sits beside strings makes `sorted` compare a float with a string and
raise TypeError. -/
def socios_opts (c : Frame) : Except PdError (List String) :=
  if c.hasSocio then
    if c.rows.any (fun r => r.socioResponsavel.isNone) then .error .typeError
    else .ok (sortedDedup (c.rows.filterMap (fun r => r.socioResponsavel)))
  else .error .keyError

/-- Model of `sorted(self.contratos["tipoContrato"].unique())`, with the same
failure modes as the socio options. -/
def tipos_opts (c : Frame) : Except PdError (List String) :=
  if c.hasTipo then
    if c.rows.any (fun r => r.tipoContrato.isNone) then .error .typeError
    else .ok (sortedDedup (c.rows.filterMap (fun r => r.tipoContrato)))
  else .error .keyError

/-- Model of the guarded banco options: `none` when the column is absent
(the sidebar then skips the banco filter, line 83); when present, `sorted`
still raises TypeError if some record lacks the field. -/
def bancos_opts (c : Frame) : Option (Except PdError (List String)) :=
  if c.hasBanco then
    some (if c.rows.any (fun r => r.banco.isNone) then .error .typeError
          else .ok (sortedDedup (c.rows.filterMap (fun r => r.banco))))
  else none

/-- Year of a row as `dt.year` sees it: `none` for an absent column entry or a
NaT cell. -/
def anoOf (r : Rec) : Option Nat :=
  match r.dataContratacao with
  | some (some d) => some d.year
  | _ => none

/-- Month number (1 to 12) of a row as `dt.month` sees it. -/
def mesOf (r : Rec) : Option Nat :=
  match r.dataContratacao with
  | some (some d) => some (d.month.val + 1)
  | _ => none

/-- Model of the guarded year options (lines 94 to 98): `none` when the date
column is absent; otherwise `sorted(dropna().dt.year.unique())`, which never
raises because NaT rows are dropped first. -/
def anos_opts (c : Frame) : Option (List Nat) :=
  if c.hasData then some (sortedDedup (c.rows.filterMap anoOf)) else none

/-- The sidebar selection state: the two unconditional multiselects, plus the
banco and ano multiselects that exist only when the dimension's column exists
(`none` models the `filtro_banco = None` and `filtro_ano = None` branches). -/
structure Selection where
  filtro_socio : List String
  filtro_contrato : List String
  filtro_banco : Option (List String)
  filtro_ano : Option (List Nat)
deriving DecidableEq

/-- The row-level filter condition of lines 103 to 109: two `isin` tests always,
the banco `isin` only when the banco filter exists, the year `isin` only when
the year filter exists.  `isin` on a NaN cell is false, and `dt.year` of a NaT
cell is NaN, so rows lacking the tested field fail the active test. -/
def passes (s : Selection) (r : Rec) : Bool :=
  (match r.socioResponsavel with
   | some p => s.filtro_socio.contains p
   | none => false) &&
  (match r.tipoContrato with
   | some t => s.filtro_contrato.contains t
   | none => false) &&
  (match s.filtro_banco with
   | some bs =>
     match r.banco with
     | some b => bs.contains b
     | none => false
   | none => true) &&
  (match s.filtro_ano with
   | some ys =>
     match anoOf r with
     | some y => ys.contains y
     | none => false
   | none => true)

/-- Line 111: `self.df_filtrado = self.contratos[cond]`, a row filter that
preserves the frame order; the row-level test assumes the indexed columns
exist (see `apply_filtros_exc` for the column checks of lines 104 to 109). -/
def apply_filtros (c : Frame) (s : Selection) : List Rec :=
  c.rows.filter (passes s)

/-- Column-checked filter application (lines 103 to 111): building `cond`
indexes the socio and tipo columns unconditionally, and the banco and date
columns only when the corresponding filter exists; indexing a missing column
raises KeyError before any row is filtered. -/
def apply_filtros_exc (c : Frame) (s : Selection) : Except PdError (List Rec) :=
  if c.hasSocio && c.hasTipo then
    if s.filtro_banco.isSome && !c.hasBanco then .error .keyError
    else if s.filtro_ano.isSome && !c.hasData then .error .keyError
    else .ok (apply_filtros c s)
  else .error .keyError

/-- `valorTotal` as every pandas sum aggregation sees it: NaN cells are
skipped, which is the same as summing them as zero. -/
def valorOf (r : Rec) : ℚ := r.valorTotal.getD 0

/-- Generic model of `view.groupby(key, as_index := false)["valorTotal"].sum()`:
keys are the distinct non-NaN key values in ascending order (groupby sorts and
drops NaN keys), and each group sums `valorTotal` with NaN skipped. -/
def groupSumBy {κ : Type} [LinearOrder κ] [DecidableEq κ] (key : Rec → Option κ) (view : List Rec) :
    List (κ × ℚ) :=
  (sortedDedup (view.filterMap key)).map (fun k =>
    (k, ((view.filter (fun r => decide (key r = some k))).map valorOf).sum))

/-- Line 131: `self.df_filtrado["valorTotal"].sum()`, the grand total. -/
def total_divida (view : List Rec) : ℚ :=
  (view.map valorOf).sum

/-- Lines 116 to 119: groupby socio with two aggregations; the `count`
aggregation counts non-NaN `valorTotal` cells inside the group. -/
def consolidado (view : List Rec) : List (String × Nat × ℚ) :=
  (sortedDedup (view.filterMap (fun r => r.socioResponsavel))).map (fun k =>
    let g := view.filter (fun r => decide (r.socioResponsavel = some k))
    (k, g.countP (fun r => r.valorTotal.isSome), (g.map valorOf).sum))

/-- Line 139: the banco chart data, groupby banco summing `valorTotal`. -/
def divida_por_banco (view : List Rec) : List (String × ℚ) :=
  groupSumBy (fun r => r.banco) view

/-- Column-checked summary metric (`renderizar_resumo`): indexing `valorTotal`
on a frame lacking the column raises KeyError. -/
def total_divida_exc (c : Frame) (view : List Rec) : Except PdError ℚ :=
  if c.hasValor then .ok (total_divida view) else .error .keyError

/-- Column-checked consolidated table (`renderizar_tabela_consolidada`):
groupby on a missing socio column, or aggregation over a missing valorTotal
column, raises KeyError. -/
def consolidado_exc (c : Frame) (view : List Rec) :
    Except PdError (List (String × Nat × ℚ)) :=
  if c.hasSocio && c.hasValor then .ok (consolidado view) else .error .keyError

/-- Column-checked banco chart data (line 139 is unguarded): KeyError when the
banco or valorTotal column is absent. -/
def divida_por_banco_exc (c : Frame) (view : List Rec) :
    Except PdError (List (String × ℚ)) :=
  if c.hasBanco && c.hasValor then .ok (divida_por_banco view) else .error .keyError

/-- The month-name table of lines 171 to 175; months outside the dict would map
to NaN, but `dt.month` only produces 1 to 12. -/
def meses_pt (m : Nat) : String :=
  match m with
  | 1 => "Janeiro"
  | 2 => "Fevereiro"
  | 3 => "Março"
  | 4 => "Abril"
  | 5 => "Maio"
  | 6 => "Junho"
  | 7 => "Julho"
  | 8 => "Agosto"
  | 9 => "Setembro"
  | 10 => "Outubro"
  | 11 => "Novembro"
  | 12 => "Dezembro"
  | _ => ""

/-- Month branch of the parcelas chart (lines 168 to 200): groupby on
`dt.month` (NaT rows have a NaN key and are dropped), rows sorted by month
number, labelled with the Portuguese month names; the `valorTotal` aggregation
raises KeyError if the column is absent. -/
def parcelas_por_mes (c : Frame) (view : List Rec) : Except PdError (List (String × ℚ)) :=
  if c.hasValor then
    .ok ((groupSumBy mesOf view).map (fun p => (meses_pt p.1, p.2)))
  else .error .keyError

/-- Year branch of the parcelas chart (lines 201 to 247): line 202 materializes
`dt.year.astype(int)`, which raises on any NaT row, before the groupby on the
year runs. -/
def parcelas_por_ano (c : Frame) (view : List Rec) : Except PdError (List (String × ℚ)) :=
  if view.any (fun r => (anoOf r).isNone) then .error .valueError
  else if c.hasValor then
    .ok ((groupSumBy anoOf view).map (fun p => (toString p.1, p.2)))
  else .error .keyError

/-- The parcelas chart data of `renderizar_graficos` (lines 166 to 250): `none`
when the frame has no `dataContratacao` column (the chart is replaced by an
info message); otherwise the month branch runs exactly when the stored year
selection exists and has exactly one element. -/
def grafico_parcelas (c : Frame) (view : List Rec) (ano_selecionado : Option (List Nat)) :
    Option (Except PdError (List (String × ℚ))) :=
  if c.hasData then
    some (match ano_selecionado with
          | some ys =>
            if ys.length = 1 then parcelas_por_mes c view else parcelas_por_ano c view
          | none => parcelas_por_ano c view)
  else none

/-- Models `renderizar_tabela_detalhada`: its rows are exactly the filtered
rows (no row is added or removed); the final column selection raises KeyError
unless the socio, banco, valorTotal and both date columns exist
(`numeroContrato` is defaulted when missing, and the duration column exists
only when both date columns do). -/
def tabela_detalhada (c : Frame) (view : List Rec) : Except PdError (List Rec) :=
  if c.hasSocio && c.hasBanco && c.hasData && c.hasVenc && c.hasValor then .ok view
  else .error .keyError

/-- Decidable equality for raised-or-returned results, so concrete runs of the
modelled operations can be checked by evaluation. -/
instance {ε α : Type} [DecidableEq ε] [DecidableEq α] : DecidableEq (Except ε α) := fun x y =>
  match x, y with
  | .ok a, .ok b =>
    if h : a = b then isTrue (by rw [h]) else isFalse (fun hh => by cases hh; exact h rfl)
  | .error a, .error b =>
    if h : a = b then isTrue (by rw [h]) else isFalse (fun hh => by cases hh; exact h rfl)
  | .ok _, .error _ => isFalse (fun hh => Except.noConfusion hh)
  | .error _, .ok _ => isFalse (fun hh => Except.noConfusion hh)

/-- The character of a decimal digit. -/
def digitChar (d : Nat) : Char := Char.ofNat (48 + d % 10)

/-- Decimal digit characters of `n`, least significant first; the `fuel`
argument bounds the number of digits and any `fuel` with `n ≤ fuel` is
sufficient. -/
def natDigitsRev (fuel n : Nat) : List Char :=
  match fuel, n with
  | _, 0 => []
  | 0, _ => []
  | f + 1, m + 1 => digitChar ((m + 1) % 10) :: natDigitsRev f ((m + 1) / 10)

/-- Decimal digit characters of `n`, most significant first, never empty. -/
def natDigitsNE (n : Nat) : List Char :=
  if n = 0 then ['0'] else (natDigitsRev n n).reverse

/-- Thousands grouping on a reversed (least significant first) digit list: a
separator after every three characters while more follow. -/
def groupRev (sep : Char) : List Char → List Char
  | a :: b :: c :: d :: rest => a :: b :: c :: sep :: groupRev sep (d :: rest)
  | l => l

/-- Thousands grouping of a most-significant-first digit string, as the Python
format specification `,` does it. -/
def group3 (sep : Char) (ds : List Char) : List Char :=
  (groupRev sep ds.reverse).reverse

/-- The two fraction digits of a cent remainder below one hundred. -/
def twoDigitsChars (n : Nat) : List Char :=
  [digitChar (n / 10), digitChar (n % 10)]

/-- Model of the f-string `valor:,.2f` of line 18: the amount rounded to
cents and rendered with two decimal digits, a comma as thousands separator, a
dot as decimal separator, and a leading minus sign when negative. -/
def pyFormatComma (valor : ℚ) : List Char :=
  let c : ℤ := round (100 * valor)
  let n : Nat := c.natAbs
  (if c < 0 then ['-'] else []) ++
    group3 ',' (natDigitsNE (n / 100)) ++ '.' :: twoDigitsChars (n % 100)

/-- Single-character `str.replace` of line 19, a character-wise map. -/
def replaceChar (a b : Char) (l : List Char) : List Char :=
  l.map (fun ch => if ch = a then b else ch)

/-- The fallback branch of `formatar_moeda` (lines 18 to 20): format with the
machine convention, swap the two separators through the placeholder character
`v`, and put the literal `R$ ` in front. -/
def formatar_moeda_fallback (valor : ℚ) : String :=
  "R$ " ++ String.mk
    (replaceChar 'v' '.' (replaceChar '.' ',' (replaceChar ',' 'v' (pyFormatComma valor))))

/-- Exchange of the two separator characters; every other character is kept. -/
def swapSep (ch : Char) : Char :=
  if ch = ',' then '.' else if ch = '.' then ',' else ch

/-- Modelled from the spec's words for the fallback path of the Currency
Formatter: exactly two decimal digits, a dot as thousands separator, a comma
as decimal separator, and the literal `R$ ` in front. -/
def formatBRL_spec (valor : ℚ) : String :=
  let c : ℤ := round (100 * valor)
  let n : Nat := c.natAbs
  "R$ " ++ String.mk
    ((if c < 0 then ['-'] else []) ++
      group3 '.' (natDigitsNE (n / 100)) ++ ',' :: twoDigitsChars (n % 100))

/-- Modelled from the spec's words for the Filter Engine: a record passes iff
its partner is selected, its contract type is selected, the lender dimension
is absent from the dataset or its lender is selected, and the year dimension
is absent from the dataset or its contract year is known and selected. -/
def specPasses (c : Frame) (s : Selection) (r : Rec) : Prop :=
  (∃ p, r.socioResponsavel = some p ∧ p ∈ s.filtro_socio) ∧
  (∃ t, r.tipoContrato = some t ∧ t ∈ s.filtro_contrato) ∧
  (c.hasBanco = false ∨ ∃ b, r.banco = some b ∧ b ∈ s.filtro_banco.getD []) ∧
  (c.hasData = false ∨ ∃ y, anoOf r = some y ∧ y ∈ s.filtro_ano.getD [])

/-- Modelled from the spec's words for the single-year branch of `timeSeries`:
walk the twelve canonical months in calendar order, keep those with at least
one matching record, and label each with its Portuguese name and the sum of
the matching amounts. -/
def serie_mensal_spec (view : List Rec) : List (String × ℚ) :=
  (((List.range 12).map (fun i => i + 1)).filter
      (fun m => view.any (fun r => mesOf r == some m))).map
    (fun m => (meses_pt m, ((view.filter (fun r => decide (mesOf r = some m))).map valorOf).sum))

/-- Modelled from the spec's words for the other branch of `timeSeries`: the
calendar years with at least one matching record, ascending, each with the sum
of the matching amounts. -/
def serie_anual_spec (view : List Rec) : List (String × ℚ) :=
  (sortedDedup (view.filterMap anoOf)).map
    (fun y => (toString y, ((view.filter (fun r => decide (anoOf r = some y))).map valorOf).sum))

/-- A well-formed sample contract used by the concrete checks. -/
def rawBoa : RawRec :=
  { socioResponsavel := some "Ana"
    banco := some "Banco Alfa"
    tipoContrato := some "Credito Rural"
    numeroContrato := some "C-001"
    valorTotal := some 10
    dataContratacao := some "2022-05-10"
    vencimentoContrato := some "2025-05-10" }

/-- A contract whose lender key is absent. -/
def rawSemBanco : RawRec :=
  { socioResponsavel := some "Zeca"
    banco := none
    tipoContrato := some "Credito Rural"
    numeroContrato := some "C-002"
    valorTotal := some 7
    dataContratacao := some "2022-06-01"
    vencimentoContrato := some "2024-06-01" }

/-- A contract whose contract date does not parse. -/
def rawDataRuim : RawRec :=
  { socioResponsavel := some "Zeca"
    banco := some "Banco Beta"
    tipoContrato := some "Credito Rural"
    numeroContrato := some "C-003"
    valorTotal := some 7
    dataContratacao := some "nao-e-uma-data"
    vencimentoContrato := some "2024-06-01" }

/-- A contract missing `valorTotal`. -/
def rawSemValor : RawRec :=
  { socioResponsavel := some "Zeca"
    banco := some "Banco Alfa"
    tipoContrato := some "Credito Rural"
    numeroContrato := some "C-004"
    valorTotal := none
    dataContratacao := some "2022-06-01"
    vencimentoContrato := some "2024-06-01" }

/-- A contract carrying only the always-required fields, with no lender and no
dates at all. -/
def rawSoCampos : RawRec :=
  { socioResponsavel := some "Ana"
    banco := none
    tipoContrato := some "Credito Rural"
    numeroContrato := none
    valorTotal := some 5
    dataContratacao := none
    vencimentoContrato := none }

/-- The empty repository: an object whose `contratos` array is empty. -/
def frameVazio : Frame := preparar_dados (some [])

theorem mem_sortedDedup {α : Type} [LinearOrder α] [DecidableEq α] {l : List α} {a : α} :
    a ∈ sortedDedup l ↔ a ∈ l := by
  unfold sortedDedup
  rw [List.mem_insertionSort, List.mem_dedup]

theorem nodup_sortedDedup {α : Type} [LinearOrder α] [DecidableEq α] (l : List α) :
    (sortedDedup l).Nodup :=
  (List.perm_insertionSort _ _).nodup_iff.mpr l.nodup_dedup

theorem sorted_sortedDedup {α : Type} [LinearOrder α] [DecidableEq α] (l : List α) :
    (sortedDedup l).Sorted (fun a b => a ≤ b) :=
  List.sorted_insertionSort _ _

theorem sortedDedup_eq_filter {α : Type} [LinearOrder α] [DecidableEq α]
    (ms l : List α) (hnd : ms.Nodup) (hs : ms.Sorted (fun a b => a ≤ b))
    (hsub : ∀ a ∈ l, a ∈ ms) :
    sortedDedup l = ms.filter (fun a => decide (a ∈ l)) := by
  apply List.eq_of_perm_of_sorted _ (sorted_sortedDedup l) (hs.filter _)
  rw [List.perm_ext_iff_of_nodup (nodup_sortedDedup l) (hnd.filter _)]
  intro a
  rw [mem_sortedDedup, List.mem_filter]
  constructor
  · intro h
    exact ⟨hsub a h, by simpa using h⟩
  · intro h
    simpa using h.2

theorem sum_map_ite_single {α M : Type} [AddCommMonoid M] [DecidableEq α] :
    ∀ ks : List α, ks.Nodup → ∀ k0 ∈ ks, ∀ v : M,
      (ks.map (fun k => if k0 = k then v else 0)).sum = v := by
  intro ks
  induction ks with
  | nil => intro _ k0 h; cases h
  | cons a t ih =>
    intro hnd k0 hk v
    rw [List.map_cons, List.sum_cons]
    rcases List.mem_cons.mp hk with h | h
    · subst h
      rw [if_pos rfl]
      have hz : (t.map (fun k => if k0 = k then v else 0)).sum = 0 := by
        apply List.sum_eq_zero
        intro x hx
        rcases List.mem_map.mp hx with ⟨k, hkt, hke⟩
        rw [if_neg (by intro e; subst e; exact (List.nodup_cons.mp hnd).1 hkt)] at hke
        exact hke.symm
      rw [hz, add_zero]
    · rw [if_neg (by intro e; subst e; exact (List.nodup_cons.mp hnd).1 h), zero_add]
      exact ih (List.nodup_cons.mp hnd).2 k0 h v

theorem sum_fiber {κ M : Type} [DecidableEq κ] [AddCommMonoid M]
    (key : Rec → Option κ) (v : Rec → M) :
    ∀ (view : List Rec) (ks : List κ), ks.Nodup →
      (∀ r ∈ view, ∀ k, key r = some k → k ∈ ks) →
      (ks.map (fun k => ((view.filter (fun r => decide (key r = some k))).map v).sum)).sum
        = ((view.filter (fun r => (key r).isSome)).map v).sum := by
  intro view
  induction view with
  | nil => intro ks _ _; simp
  | cons r t ih =>
    intro ks hnd hcov
    have hstep :
        (ks.map (fun k => (((r :: t).filter (fun x => decide (key x = some k))).map v).sum)).sum
          = (ks.map (fun k => (if key r = some k then v r else 0)
              + ((t.filter (fun x => decide (key x = some k))).map v).sum)).sum := by
      apply congrArg
      apply List.map_congr_left
      intro k _
      by_cases h : key r = some k
      · rw [List.filter_cons_of_pos (by simpa using h), List.map_cons, List.sum_cons, if_pos h]
      · rw [List.filter_cons_of_neg (by simpa using h), if_neg h, zero_add]
    rw [hstep, List.sum_map_add]
    have hcovt : ∀ x ∈ t, ∀ k, key x = some k → k ∈ ks :=
      fun x hx => hcov x (List.mem_cons_of_mem r hx)
    rw [ih ks hnd hcovt]
    by_cases hkr : (key r).isSome
    · rcases Option.isSome_iff_exists.mp hkr with ⟨k0, hk0⟩
      rw [List.filter_cons_of_pos (by simpa using hkr), List.map_cons, List.sum_cons]
      have h1 : (ks.map (fun k => if key r = some k then v r else 0)).sum = v r := by
        have he : (fun k => if key r = some k then v r else (0 : M))
            = fun k => if k0 = k then v r else 0 := by
          funext k
          rw [hk0]
          by_cases h : k0 = k
          · rw [if_pos (by rw [h]), if_pos h]
          · rw [if_neg (fun e => h (Option.some_inj.mp e)), if_neg h]
        rw [he]
        exact sum_map_ite_single ks hnd k0 (hcov r (List.mem_cons_self r t) k0 hk0) (v r)
      rw [h1]
    · rw [List.filter_cons_of_neg (by simpa using hkr)]
      have h1 : (ks.map (fun k => if key r = some k then v r else 0)).sum = 0 := by
        apply List.sum_eq_zero
        intro x hx
        rcases List.mem_map.mp hx with ⟨k, _, hke⟩
        rw [if_neg (fun e => hkr (by rw [e]; rfl))] at hke
        exact hke.symm
      rw [h1, zero_add]

theorem countP_eq_sum_map (p : Rec → Bool) (l : List Rec) :
    l.countP p = (l.map (fun r => if p r then (1 : ℕ) else 0)).sum := by
  induction l with
  | nil => rfl
  | cons a t ih =>
    rw [List.countP_cons, ih, List.map_cons, List.sum_cons]
    by_cases h : p a
    · simp [h, Nat.add_comm]
    · simp [h]

theorem groupSumBy_total {κ : Type} [LinearOrder κ] [DecidableEq κ] (key : Rec → Option κ) (view : List Rec) :
    ((groupSumBy key view).map (fun p => p.2)).sum
      = ((view.filter (fun r => (key r).isSome)).map valorOf).sum := by
  unfold groupSumBy
  rw [List.map_map]
  exact sum_fiber key valorOf view (sortedDedup (view.filterMap key)) (nodup_sortedDedup _)
    (fun r hr k hk => mem_sortedDedup.mpr (List.mem_filterMap.mpr ⟨r, hr, hk⟩))

theorem consolidado_keys (view : List Rec) :
    (consolidado view).map (fun row => row.1)
      = sortedDedup (view.filterMap (fun r => r.socioResponsavel)) := by
  unfold consolidado
  rw [List.map_map]
  exact List.map_id _

theorem mem_consolidado_keys {view : List Rec} {p : String} :
    p ∈ (consolidado view).map (fun row => row.1) ↔
      ∃ q ∈ view, q.socioResponsavel = some p := by
  rw [consolidado_keys, mem_sortedDedup, List.mem_filterMap]

theorem consolidado_row {view : List Rec} {row : String × Nat × ℚ}
    (h : row ∈ consolidado view) :
    row.2.1 = (view.filter (fun r => decide (r.socioResponsavel = some row.1))).countP
        (fun r => r.valorTotal.isSome) ∧
    row.2.2 = ((view.filter (fun r => decide (r.socioResponsavel = some row.1))).map valorOf).sum := by
  unfold consolidado at h
  rcases List.mem_map.mp h with ⟨k, _, hk⟩
  cases hk
  exact ⟨rfl, rfl⟩

theorem consolidado_total_sum (view : List Rec) :
    ((consolidado view).map (fun row => row.2.2)).sum
      = ((view.filter (fun r => r.socioResponsavel.isSome)).map valorOf).sum := by
  unfold consolidado
  rw [List.map_map]
  exact sum_fiber (fun r => r.socioResponsavel) valorOf view
    (sortedDedup (view.filterMap (fun r => r.socioResponsavel))) (nodup_sortedDedup _)
    (fun r hr k hk => mem_sortedDedup.mpr (List.mem_filterMap.mpr ⟨r, hr, hk⟩))

theorem consolidado_count_sum (view : List Rec) :
    ((consolidado view).map (fun row => row.2.1)).sum
      = (view.filter (fun r => r.socioResponsavel.isSome)).countP
          (fun r => r.valorTotal.isSome) := by
  unfold consolidado
  rw [List.map_map, countP_eq_sum_map]
  rw [← sum_fiber (fun r => r.socioResponsavel)
      (fun r => if r.valorTotal.isSome then (1 : ℕ) else 0) view
      (sortedDedup (view.filterMap (fun r => r.socioResponsavel))) (nodup_sortedDedup _)
      (fun r hr k hk => mem_sortedDedup.mpr (List.mem_filterMap.mpr ⟨r, hr, hk⟩))]
  apply congrArg
  apply List.map_congr_left
  intro k _
  exact countP_eq_sum_map _ _

theorem mem_apply_filtros {c : Frame} {s : Selection} {r : Rec} :
    r ∈ apply_filtros c s ↔ r ∈ c.rows ∧ passes s r = true := by
  unfold apply_filtros
  exact List.mem_filter

theorem passes_parts {s : Selection} {r : Rec} (hp : passes s r = true) :
    (match r.socioResponsavel with
     | some p => s.filtro_socio.contains p
     | none => false) = true ∧
    (match r.tipoContrato with
     | some t => s.filtro_contrato.contains t
     | none => false) = true ∧
    (match s.filtro_banco with
     | some bs =>
       match r.banco with
       | some b => bs.contains b
       | none => false
     | none => true) = true ∧
    (match s.filtro_ano with
     | some ys =>
       match anoOf r with
       | some y => ys.contains y
       | none => false
     | none => true) = true := by
  unfold passes at hp
  simpa only [Bool.and_eq_true, and_assoc] using hp

theorem apply_socio_isSome {c : Frame} {s : Selection} {r : Rec}
    (h : r ∈ apply_filtros c s) : r.socioResponsavel.isSome = true := by
  have hp := (passes_parts (mem_apply_filtros.mp h).2).1
  cases hso : r.socioResponsavel with
  | none => rw [hso] at hp; exact absurd hp (by simp)
  | some p => rfl

theorem apply_banco_isSome {c : Frame} {s : Selection} {bs : List String}
    (hb : s.filtro_banco = some bs) {r : Rec}
    (h : r ∈ apply_filtros c s) : r.banco.isSome = true := by
  have hp := (passes_parts (mem_apply_filtros.mp h).2).2.2.1
  rw [hb] at hp
  cases hba : r.banco with
  | none => rw [hba] at hp; exact absurd hp (by simp)
  | some b => rfl

theorem apply_ano_isSome {c : Frame} {s : Selection} {ys : List Nat}
    (hy : s.filtro_ano = some ys) {r : Rec}
    (h : r ∈ apply_filtros c s) : (anoOf r).isSome = true := by
  have hp := (passes_parts (mem_apply_filtros.mp h).2).2.2.2
  rw [hy] at hp
  cases hva : anoOf r with
  | none => rw [hva] at hp; exact absurd hp (by simp)
  | some y => rfl

theorem apply_filter_socio (c : Frame) (s : Selection) :
    (apply_filtros c s).filter (fun r => r.socioResponsavel.isSome) = apply_filtros c s :=
  List.filter_eq_self.mpr (fun _ hr => apply_socio_isSome hr)

theorem divida_por_banco_values_sum (view : List Rec) :
    ((divida_por_banco view).map (fun p => p.2)).sum
      = ((view.filter (fun r => r.banco.isSome)).map valorOf).sum :=
  groupSumBy_total _ _

theorem digit_chars_ok : ∀ e < 10, Char.ofNat (48 + e) ≠ ',' ∧
    Char.ofNat (48 + e) ≠ '.' ∧ Char.ofNat (48 + e) ≠ 'v' := by decide

theorem digitChar_ne (d : Nat) :
    digitChar d ≠ ',' ∧ digitChar d ≠ '.' ∧ digitChar d ≠ 'v' := by
  unfold digitChar
  exact digit_chars_ok (d % 10) (Nat.mod_lt d (by norm_num))

theorem mem_natDigitsRev {f n : Nat} {ch : Char} (h : ch ∈ natDigitsRev f n) :
    ∃ d, ch = digitChar d := by
  induction f generalizing n with
  | zero =>
    cases n with
    | zero => exact absurd h (by simp [natDigitsRev])
    | succ m => exact absurd h (by simp [natDigitsRev])
  | succ f ih =>
    cases n with
    | zero => exact absurd h (by simp [natDigitsRev])
    | succ m =>
      have hu : natDigitsRev (f + 1) (m + 1)
          = digitChar ((m + 1) % 10) :: natDigitsRev f ((m + 1) / 10) := rfl
      rw [hu] at h
      rcases List.mem_cons.mp h with h | h
      · exact ⟨(m + 1) % 10, h⟩
      · exact ih h

theorem mem_natDigitsNE {n : Nat} {ch : Char} (h : ch ∈ natDigitsNE n) :
    ∃ d, ch = digitChar d := by
  unfold natDigitsNE at h
  by_cases h0 : n = 0
  · rw [if_pos h0] at h
    simp only [List.mem_singleton] at h
    exact ⟨0, by rw [h]; rfl⟩
  · rw [if_neg h0] at h
    exact mem_natDigitsRev (List.mem_reverse.mp h)

theorem natDigitsNE_ne_sep {n : Nat} {ch : Char} (h : ch ∈ natDigitsNE n) :
    ch ≠ ',' ∧ ch ≠ '.' ∧ ch ≠ 'v' := by
  rcases mem_natDigitsNE h with ⟨d, hd⟩
  rw [hd]
  exact digitChar_ne d

theorem mem_groupRev (sep : Char) :
    ∀ (n : Nat) (l : List Char), l.length = n → ∀ ch ∈ groupRev sep l, ch = sep ∨ ch ∈ l := by
  intro n
  induction n using Nat.strong_induction_on with
  | _ n ih =>
    intro l hn ch hch
    rcases l with _ | ⟨a, _ | ⟨b, _ | ⟨c, _ | ⟨d, rest⟩⟩⟩⟩
    · exact Or.inr hch
    · exact Or.inr hch
    · exact Or.inr hch
    · exact Or.inr hch
    · have hg : groupRev sep (a :: b :: c :: d :: rest)
          = a :: b :: c :: sep :: groupRev sep (d :: rest) := rfl
      rw [hg] at hch
      simp only [List.mem_cons] at hch ⊢
      rcases hch with h | h | h | h | h
      · exact Or.inr (Or.inl h)
      · exact Or.inr (Or.inr (Or.inl h))
      · exact Or.inr (Or.inr (Or.inr (Or.inl h)))
      · exact Or.inl h
      · have hlt : (d :: rest).length < n := by
          rw [← hn]
          simp only [List.length_cons]
          omega
        rcases ih (d :: rest).length hlt (d :: rest) rfl ch h with h2 | h2
        · exact Or.inl h2
        · rcases List.mem_cons.mp h2 with h3 | h3
          · exact Or.inr (Or.inr (Or.inr (Or.inr (Or.inl h3))))
          · exact Or.inr (Or.inr (Or.inr (Or.inr (Or.inr h3))))

theorem mem_group3 {sep : Char} {ds : List Char} {ch : Char} (h : ch ∈ group3 sep ds) :
    ch = sep ∨ ch ∈ ds := by
  unfold group3 at h
  rcases mem_groupRev sep ds.reverse.length ds.reverse rfl ch (List.mem_reverse.mp h) with h2 | h2
  · exact Or.inl h2
  · exact Or.inr (List.mem_reverse.mp h2)

theorem map_groupRev (f : Char → Char) (sep : Char) :
    ∀ (n : Nat) (l : List Char), l.length = n →
      (groupRev sep l).map f = groupRev (f sep) (l.map f) := by
  intro n
  induction n using Nat.strong_induction_on with
  | _ n ih =>
    intro l hn
    rcases l with _ | ⟨a, _ | ⟨b, _ | ⟨c, _ | ⟨d, rest⟩⟩⟩⟩
    · rfl
    · rfl
    · rfl
    · rfl
    · have hg : groupRev sep (a :: b :: c :: d :: rest)
          = a :: b :: c :: sep :: groupRev sep (d :: rest) := rfl
      have hg2 : groupRev (f sep) (f a :: f b :: f c :: f d :: rest.map f)
          = f a :: f b :: f c :: f sep :: groupRev (f sep) (f d :: rest.map f) := rfl
      have hlt : (d :: rest).length < n := by
        rw [← hn]
        simp only [List.length_cons]
        omega
      rw [hg, List.map_cons, List.map_cons, List.map_cons, List.map_cons,
        ih (d :: rest).length hlt (d :: rest) rfl]
      simp only [List.map_cons]
      rw [hg2]

theorem map_group3 (f : Char → Char) (sep : Char) (ds : List Char) :
    (group3 sep ds).map f = group3 (f sep) (ds.map f) := by
  unfold group3
  rw [List.map_reverse, map_groupRev f sep ds.reverse.length ds.reverse rfl, List.map_reverse]

theorem replace_swap {l : List Char} (h : ∀ ch ∈ l, ch ≠ 'v') :
    replaceChar 'v' '.' (replaceChar '.' ',' (replaceChar ',' 'v' l)) = l.map swapSep := by
  unfold replaceChar
  rw [List.map_map, List.map_map]
  apply List.map_congr_left
  intro ch hch
  have hv := h ch hch
  by_cases h1 : ch = ','
  · subst h1; rfl
  · by_cases h2 : ch = '.'
    · subst h2; rfl
    · simp [Function.comp, swapSep, h1, h2, hv]

theorem mem_twoDigitsChars {n : Nat} {ch : Char} (h : ch ∈ twoDigitsChars n) :
    ∃ d, ch = digitChar d := by
  unfold twoDigitsChars at h
  rcases List.mem_cons.mp h with h2 | h2
  · exact ⟨n / 10, h2⟩
  · rcases List.mem_cons.mp h2 with h3 | h3
    · exact ⟨n % 10, h3⟩
    · exact absurd h3 (List.not_mem_nil ch)

theorem pyFormatComma_no_v (q : ℚ) : ∀ ch ∈ pyFormatComma q, ch ≠ 'v' := by
  intro ch hch
  unfold pyFormatComma at hch
  rcases List.mem_append.mp hch with h | h
  · rcases List.mem_append.mp h with h2 | h2
    · by_cases hc : round (100 * q) < 0
      · rw [if_pos hc] at h2
        simp only [List.mem_singleton] at h2
        rw [h2]
        decide
      · rw [if_neg hc] at h2
        exact absurd h2 (List.not_mem_nil ch)
    · rcases mem_group3 h2 with h3 | h3
      · rw [h3]
        decide
      · exact (natDigitsNE_ne_sep h3).2.2
  · rcases List.mem_cons.mp h with h2 | h2
    · rw [h2]
      decide
    · rcases mem_twoDigitsChars h2 with ⟨d, hd⟩
      rw [hd]
      exact (digitChar_ne d).2.2

theorem map_swapSep_natDigitsNE (n : Nat) :
    (natDigitsNE n).map swapSep = natDigitsNE n := by
  have h : ∀ ch ∈ natDigitsNE n, swapSep ch = ch := by
    intro ch hch
    rcases natDigitsNE_ne_sep hch with ⟨h1, h2, _⟩
    unfold swapSep
    rw [if_neg h1, if_neg h2]
  calc (natDigitsNE n).map swapSep = (natDigitsNE n).map id := List.map_congr_left h
  _ = natDigitsNE n := List.map_id _

theorem map_swapSep_pyFormat (q : ℚ) :
    (pyFormatComma q).map swapSep
      = (if round (100 * q) < 0 then ['-'] else []) ++
          group3 '.' (natDigitsNE ((round (100 * q)).natAbs / 100)) ++
          ',' :: twoDigitsChars ((round (100 * q)).natAbs % 100) := by
  unfold pyFormatComma
  rw [List.map_append, List.map_append, List.map_cons]
  have h1 : (if round (100 * q) < 0 then ['-'] else []).map swapSep
      = (if round (100 * q) < 0 then ['-'] else []) := by
    by_cases hc : round (100 * q) < 0
    · rw [if_pos hc]
      rfl
    · rw [if_neg hc]
      rfl
  have h2 : (group3 ',' (natDigitsNE ((round (100 * q)).natAbs / 100))).map swapSep
      = group3 '.' (natDigitsNE ((round (100 * q)).natAbs / 100)) := by
    rw [map_group3, map_swapSep_natDigitsNE]
    rfl
  have h3 : (twoDigitsChars ((round (100 * q)).natAbs % 100)).map swapSep
      = twoDigitsChars ((round (100 * q)).natAbs % 100) := by
    unfold twoDigitsChars
    simp only [List.map_cons, List.map_nil]
    have ha := digitChar_ne ((round (100 * q)).natAbs % 100 / 10)
    have hb := digitChar_ne ((round (100 * q)).natAbs % 100 % 10)
    unfold swapSep
    rw [if_neg ha.1, if_neg ha.2.1, if_neg hb.1, if_neg hb.2.1]
  rw [h1, h2, h3]
  rfl

theorem fallback_eq_spec (q : ℚ) : formatar_moeda_fallback q = formatBRL_spec q := by
  unfold formatar_moeda_fallback formatBRL_spec
  rw [replace_swap (pyFormatComma_no_v q), map_swapSep_pyFormat]

theorem mesOf_bounds {r : Rec} {m : Nat} (h : mesOf r = some m) : 1 ≤ m ∧ m ≤ 12 := by
  unfold mesOf at h
  rcases hdc : r.dataContratacao with _ | od
  · rw [hdc] at h
    simp at h
  · rcases od with _ | d
    · rw [hdc] at h
      simp at h
    · rw [hdc] at h
      simp only [Option.some_inj] at h
      have hlt := d.month.isLt
      omega

theorem mem_canonical_of_mesOf {r : Rec} {m : Nat} (h : mesOf r = some m) :
    m ∈ (List.range 12).map (fun i => i + 1) := by
  have h2 := mesOf_bounds h
  simp only [List.mem_map, List.mem_range]
  exact ⟨m - 1, by omega, by omega⟩

theorem canonical_meses_nodup : ((List.range 12).map (fun i => i + 1)).Nodup := by decide

theorem canonical_meses_sorted :
    ((List.range 12).map (fun i => i + 1)).Sorted (fun a b => a ≤ b) := by decide

theorem filterMap_decide_any (view : List Rec) (key : Rec → Option Nat) (m : Nat) :
    decide (m ∈ view.filterMap key) = view.any (fun r => key r == some m) := by
  by_cases h : m ∈ view.filterMap key
  · rw [decide_eq_true h]
    rcases List.mem_filterMap.mp h with ⟨r, hr, he⟩
    exact (List.any_eq_true.mpr ⟨r, hr, by rw [he]; exact beq_self_eq_true _⟩).symm
  · rw [decide_eq_false h]
    symm
    rw [← Bool.not_eq_true, List.any_eq_true]
    rintro ⟨r, hr, he⟩
    exact h (List.mem_filterMap.mpr ⟨r, hr, by simpa using he⟩)

theorem parcelas_por_mes_spec (c : Frame) (view : List Rec) (hv : c.hasValor = true) :
    parcelas_por_mes c view = .ok (serie_mensal_spec view) := by
  unfold parcelas_por_mes
  rw [if_pos hv]
  apply congrArg
  unfold serie_mensal_spec groupSumBy
  rw [List.map_map]
  rw [sortedDedup_eq_filter ((List.range 12).map (fun i => i + 1)) (view.filterMap mesOf)
      canonical_meses_nodup canonical_meses_sorted
      (fun a ha => by
        rcases List.mem_filterMap.mp ha with ⟨r, _, hr⟩
        exact mem_canonical_of_mesOf hr)]
  rw [List.filter_congr (fun m _ => filterMap_decide_any view mesOf m)]
  apply List.map_congr_left
  intro m _
  rfl

theorem parcelas_por_ano_spec (c : Frame) (view : List Rec) (hv : c.hasValor = true)
    (hall : ∀ r ∈ view, (anoOf r).isSome = true) :
    parcelas_por_ano c view = .ok (serie_anual_spec view) := by
  unfold parcelas_por_ano
  have hne : view.any (fun r => (anoOf r).isNone) = false := by
    rw [← Bool.not_eq_true, List.any_eq_true]
    rintro ⟨r, hr, he⟩
    rw [Option.isNone_iff_eq_none] at he
    have h2 := hall r hr
    rw [he] at h2
    exact Bool.noConfusion h2
  rw [if_neg (by rw [hne]; exact Bool.false_ne_true), if_pos hv]
  apply congrArg
  unfold serie_anual_spec groupSumBy
  rw [List.map_map]
  apply List.map_congr_left
  intro y _
  rfl

theorem grafico_some (c : Frame) (view : List Rec) (ys : List Nat) (hd : c.hasData = true) :
    grafico_parcelas c view (some ys)
      = some (if ys.length = 1 then parcelas_por_mes c view else parcelas_por_ano c view) := by
  unfold grafico_parcelas
  rw [if_pos hd]

theorem contains_true_iff {α : Type} [BEq α] [LawfulBEq α] {l : List α} {a : α} :
    l.contains a = true ↔ a ∈ l :=
  List.elem_iff

theorem passes_iff_spec (c : Frame) (s : Selection) (r : Rec)
    (hb : s.filtro_banco = none ↔ c.hasBanco = false)
    (hy : s.filtro_ano = none ↔ c.hasData = false) :
    passes s r = true ↔ specPasses c s r := by
  unfold passes specPasses
  simp only [Bool.and_eq_true, and_assoc]
  constructor
  · rintro ⟨h1, h2, h3, h4⟩
    refine ⟨?_, ?_, ?_, ?_⟩
    · cases hso : r.socioResponsavel with
      | none => rw [hso] at h1; exact absurd h1 (by simp)
      | some p =>
        rw [hso] at h1
        exact ⟨p, rfl, contains_true_iff.mp h1⟩
    · cases hti : r.tipoContrato with
      | none => rw [hti] at h2; exact absurd h2 (by simp)
      | some t =>
        rw [hti] at h2
        exact ⟨t, rfl, contains_true_iff.mp h2⟩
    · cases hfb : s.filtro_banco with
      | none => exact Or.inl (hb.mp hfb)
      | some bs =>
        rw [hfb] at h3
        cases hba : r.banco with
        | none => rw [hba] at h3; exact absurd h3 (by simp)
        | some b =>
          rw [hba] at h3
          exact Or.inr ⟨b, rfl, contains_true_iff.mp h3⟩
    · cases hfa : s.filtro_ano with
      | none => exact Or.inl (hy.mp hfa)
      | some ys =>
        rw [hfa] at h4
        cases hya : anoOf r with
        | none => rw [hya] at h4; exact absurd h4 (by simp)
        | some y =>
          rw [hya] at h4
          exact Or.inr ⟨y, rfl, contains_true_iff.mp h4⟩
  · rintro ⟨⟨p, hp1, hp2⟩, ⟨t, ht1, ht2⟩, h3, h4⟩
    refine ⟨?_, ?_, ?_, ?_⟩
    · rw [hp1]
      exact contains_true_iff.mpr hp2
    · rw [ht1]
      exact contains_true_iff.mpr ht2
    · cases hfb : s.filtro_banco with
      | none => rfl
      | some bs =>
        rcases h3 with h3 | ⟨b, hb1, hb2⟩
        · exact absurd (hb.mpr h3) (by rw [hfb]; exact fun h => Option.noConfusion h)
        · rw [hb1]
          exact contains_true_iff.mpr (by rw [hfb] at hb2; simpa using hb2)
    · cases hfa : s.filtro_ano with
      | none => rfl
      | some ys =>
        rcases h4 with h4 | ⟨y, hy1, hy2⟩
        · exact absurd (hy.mpr h4) (by rw [hfa]; exact fun h => Option.noConfusion h)
        · rw [hy1]
          exact contains_true_iff.mpr (by rw [hfa] at hy2; simpa using hy2)

theorem tabela_detalhada_rows {c : Frame} {view rows : List Rec}
    (h : tabela_detalhada c view = Except.ok rows) : rows = view := by
  unfold tabela_detalhada at h
  by_cases hcols : (c.hasSocio && c.hasBanco && c.hasData && c.hasVenc && c.hasValor) = true
  · rw [if_pos hcols] at h
    injection h with h2
    exact h2.symm
  · rw [if_neg hcols] at h
    exact absurd h (fun hh => Except.noConfusion hh)

/-- A one-record repository with every dimension present, and the selection
the sidebar would build for it by default. -/
def cUm : Frame := preparar_dados (some [rawBoa])

/-- The default selection for `cUm`: every option of every dimension chosen. -/
def sUm : Selection :=
  { filtro_socio := ["Ana"]
    filtro_contrato := ["Credito Rural"]
    filtro_banco := some ["Banco Alfa"]
    filtro_ano := some [2022] }

/-- Claim C1: a record of the repository is in the filtered view iff its
partner is selected, its contract type is selected, the lender dimension is
absent from the dataset or its lender is selected, and the year dimension is
absent or its contract year is known and selected; in particular a record with
unknown contract year is excluded whenever the year dimension is active.  The
selection is tied to the dataset the way `renderizar_filtros` builds it: the
banco and ano filters exist exactly when the dimension's column does. -/
theorem C1_filter_engine (c : Frame) (s : Selection) (r : Rec)
    (hb : s.filtro_banco = none ↔ c.hasBanco = false)
    (hy : s.filtro_ano = none ↔ c.hasData = false) :
    (r ∈ apply_filtros c s ↔ r ∈ c.rows ∧ specPasses c s r) ∧
    (c.hasData = true → anoOf r = none → r ∉ apply_filtros c s) := by
  constructor
  · rw [mem_apply_filtros, passes_iff_spec c s r hb hy]
  · intro hd hano hmem
    have hsp := ((passes_iff_spec c s r hb hy).mp (mem_apply_filtros.mp hmem).2).2.2.2
    rcases hsp with h | ⟨y, hy2, _⟩
    · rw [hd] at h
      exact Bool.noConfusion h
    · rw [hano] at hy2
      exact Option.noConfusion hy2

/-- Witness for C1 at a concrete one-record repository with its default
selection. -/
theorem C1_filter_engine_witness :
    (normalizeRec rawBoa ∈ apply_filtros cUm sUm ↔
      normalizeRec rawBoa ∈ cUm.rows ∧ specPasses cUm sUm (normalizeRec rawBoa)) ∧
    (cUm.hasData = true → anoOf (normalizeRec rawBoa) = none →
      normalizeRec rawBoa ∉ apply_filtros cUm sUm) :=
  C1_filter_engine cUm sUm (normalizeRec rawBoa) (by decide) (by decide)

/-- Claim C2: on a filtered view built from a selection whose year filter
holds the list of selected years, the parcelas chart buckets by month with the
Portuguese month names in calendar order, omitting empty months, exactly when
one year is selected; otherwise it buckets by calendar year ascending,
omitting empty years.  The value column must exist for the chart to aggregate
at all. -/
theorem C2_time_series_switch (c : Frame) (s : Selection) (ys : List Nat)
    (hy : s.filtro_ano = some ys) (hd : c.hasData = true) (hv : c.hasValor = true) :
    (ys.length = 1 →
      grafico_parcelas c (apply_filtros c s) s.filtro_ano
        = some (Except.ok (serie_mensal_spec (apply_filtros c s)))) ∧
    (ys.length ≠ 1 →
      grafico_parcelas c (apply_filtros c s) s.filtro_ano
        = some (Except.ok (serie_anual_spec (apply_filtros c s)))) := by
  constructor
  · intro h1
    rw [hy, grafico_some c _ ys hd, if_pos h1, parcelas_por_mes_spec c _ hv]
  · intro h1
    rw [hy, grafico_some c _ ys hd, if_neg h1,
      parcelas_por_ano_spec c _ hv (fun r hr => apply_ano_isSome hy hr)]

/-- Witness for C2 at a concrete repository with a single selected year. -/
theorem C2_time_series_switch_witness :
    (([2022] : List Nat).length = 1 →
      grafico_parcelas cUm (apply_filtros cUm sUm) sUm.filtro_ano
        = some (Except.ok (serie_mensal_spec (apply_filtros cUm sUm)))) ∧
    (([2022] : List Nat).length ≠ 1 →
      grafico_parcelas cUm (apply_filtros cUm sUm) sUm.filtro_ano
        = some (Except.ok (serie_anual_spec (apply_filtros cUm sUm)))) :=
  C2_time_series_switch cUm sUm [2022] rfl rfl rfl

/-- Repository holding a full record beside a record without the lender key,
so the lender dimension is present. -/
def cTres : Frame := preparar_dados (some [rawBoa, rawSemBanco])

/-- The sidebar's default selection for `cTres`: note the banco options list
holds the one non-null banco value. -/
def sTres : Selection :=
  { filtro_socio := ["Ana", "Zeca"]
    filtro_contrato := ["Credito Rural"]
    filtro_banco := some ["Banco Alfa"]
    filtro_ano := some [2022] }

/-- Counterexample to claim C3 as stated: with the lender dimension present
and the lender filter applied, the record without a lender is excluded from
the whole filtered view, so it appears neither in the partner aggregation nor
in the detail table, while the claim says it is still included in both. -/
theorem C3_counterexample :
    cTres.hasBanco = true ∧
    normalizeRec rawSemBanco ∈ cTres.rows ∧
    (normalizeRec rawSemBanco).banco = none ∧
    (normalizeRec rawSemBanco).socioResponsavel = some "Zeca" ∧
    normalizeRec rawSemBanco ∉ apply_filtros cTres sTres ∧
    "Zeca" ∉ (consolidado (apply_filtros cTres sTres)).map (fun row => row.1) ∧
    tabela_detalhada cTres (apply_filtros cTres sTres) = Except.ok [normalizeRec rawBoa] := by
  decide

/-- Claim C3 (amended): when the lender filter is active, a record without a
lender fails the lender membership test and is excluded from the filtered view
altogether, hence from the detail table, and it contributes to no partner row;
the partner rows come only from records of the view. -/
theorem C3_lender_absent (c : Frame) (s : Selection) (bs : List String)
    (hbs : s.filtro_banco = some bs) (r : Rec) (hr : r.banco = none) :
    r ∉ apply_filtros c s ∧
    (∀ rows, tabela_detalhada c (apply_filtros c s) = Except.ok rows → r ∉ rows) ∧
    (∀ p, p ∈ (consolidado (apply_filtros c s)).map (fun row => row.1) ↔
      ∃ q ∈ apply_filtros c s, q.socioResponsavel = some p) := by
  have hnot : r ∉ apply_filtros c s := by
    intro hmem
    have h := apply_banco_isSome hbs hmem
    rw [hr] at h
    exact Bool.noConfusion h
  exact ⟨hnot, fun rows hrows => by rw [tabela_detalhada_rows hrows]; exact hnot,
    fun p => mem_consolidado_keys⟩

/-- Witness for the amended C3 at the concrete repository of the
counterexample. -/
theorem C3_lender_absent_witness :
    normalizeRec rawSemBanco ∉ apply_filtros cTres sTres ∧
    (∀ rows, tabela_detalhada cTres (apply_filtros cTres sTres) = Except.ok rows →
      normalizeRec rawSemBanco ∉ rows) ∧
    (∀ p, p ∈ (consolidado (apply_filtros cTres sTres)).map (fun row => row.1) ↔
      ∃ q ∈ apply_filtros cTres sTres, q.socioResponsavel = some p) :=
  C3_lender_absent cTres sTres ["Banco Alfa"] (by decide) (normalizeRec rawSemBanco) (by decide)

/-- Repository holding a full record beside a record whose contract date does
not parse, so the year dimension is present and its filter is built from the
known years only. -/
def cQuatro : Frame := preparar_dados (some [rawBoa, rawDataRuim])

/-- The sidebar's default selection for `cQuatro`: the ano options hold the
one known year. -/
def sQuatro : Selection :=
  { filtro_socio := ["Ana", "Zeca"]
    filtro_contrato := ["Credito Rural"]
    filtro_banco := some ["Banco Alfa", "Banco Beta"]
    filtro_ano := some [2022] }

/-- Counterexample to claim C4 as stated: the record with the unparseable
date is excluded from the whole filtered view, so it is missing from the
partner aggregation, the lender aggregation and the detail table, while the
claim says it is included in all three and excluded only from the time
series. -/
theorem C4_counterexample :
    (normalizeRec rawDataRuim).dataContratacao = some none ∧
    normalizeRec rawDataRuim ∈ cQuatro.rows ∧
    normalizeRec rawDataRuim ∉ apply_filtros cQuatro sQuatro ∧
    "Zeca" ∉ (consolidado (apply_filtros cQuatro sQuatro)).map (fun row => row.1) ∧
    "Banco Beta" ∉ (divida_por_banco (apply_filtros cQuatro sQuatro)).map (fun p => p.1) ∧
    tabela_detalhada cQuatro (apply_filtros cQuatro sQuatro) = Except.ok [normalizeRec rawBoa] := by
  decide

/-- Claim C4 (amended): a record whose contract year is unknown (unparseable
or absent date) is excluded from the filtered view whenever the year filter is
active, and with it from every aggregation and from the detail table, not only
from the time series. -/
theorem C4_unknown_date (c : Frame) (s : Selection) (ys : List Nat)
    (hys : s.filtro_ano = some ys) (r : Rec) (hr : anoOf r = none) :
    r ∉ apply_filtros c s ∧
    (∀ rows, tabela_detalhada c (apply_filtros c s) = Except.ok rows → r ∉ rows) := by
  have hnot : r ∉ apply_filtros c s := by
    intro hmem
    have h := apply_ano_isSome hys hmem
    rw [hr] at h
    exact Bool.noConfusion h
  exact ⟨hnot, fun rows hrows => by rw [tabela_detalhada_rows hrows]; exact hnot⟩

/-- Witness for the amended C4 at the concrete repository of the
counterexample. -/
theorem C4_unknown_date_witness :
    normalizeRec rawDataRuim ∉ apply_filtros cQuatro sQuatro ∧
    (∀ rows, tabela_detalhada cQuatro (apply_filtros cQuatro sQuatro) = Except.ok rows →
      normalizeRec rawDataRuim ∉ rows) :=
  C4_unknown_date cQuatro sQuatro [2022] (by decide) (normalizeRec rawDataRuim) (by decide)

/-- Counterexample to claim C5 as stated: given one well-formed record and one
record missing `valorTotal`, the load keeps both records, returning a
repository of size two and no skipped count, while the claim says size one
with a skipped count of one. -/
theorem C5_counterexample :
    (preparar_dados (some [rawBoa, rawSemValor])).rows.length = 2 ∧
    (preparar_dados (some [rawBoa, rawSemValor])).rows.length ≠ 1 := by
  decide

/-- Claim C5 (amended): `preparar_dados` normalizes every raw record one for
one; no record is skipped for missing fields and no skipped count exists, so
the repository always has the size of the input. -/
theorem C5_no_skip (dados : List RawRec) :
    (preparar_dados (some dados)).rows.length = dados.length := by
  unfold preparar_dados
  simp

/-- Claim C6: under the fallback path the formatter is the pure transformation
that renders the amount with two decimal digits, a dot as thousands separator
and a comma as decimal separator behind the literal `R$ `; in particular it
maps 1234.5 to the exact string of the claim. -/
theorem C6_formatter_fallback :
    (∀ valor : ℚ, formatar_moeda_fallback valor = formatBRL_spec valor) ∧
    formatar_moeda_fallback (2469 / 2 : ℚ) = "R$ 1.234,50" := by
  refine ⟨fallback_eq_spec, ?_⟩
  have hc : round (100 * (2469 / 2 : ℚ)) = 123450 := by norm_num [round_eq]
  simp only [formatar_moeda_fallback, pyFormatComma, hc]
  decide

/-- Counterexample to claim C7 as stated: on the empty repository the partner
options accessor raises KeyError (the column does not exist on an empty
normalized frame) instead of returning an empty list. -/
theorem C7_counterexample :
    socios_opts frameVazio = Except.error PdError.keyError ∧
    socios_opts frameVazio ≠ Except.ok [] := by
  decide

/-- Claim C7 (amended): on the empty repository only the optional banco and
ano dimensions degrade gracefully (they are reported absent) and the parcelas
chart silently disappears; the partner and contract-type option accessors, the
filter application itself (its condition indexes the socio and tipo columns,
which an empty normalized frame does not have), and the three column-indexing
aggregations all raise KeyError instead of returning empty results. -/
theorem C7_empty_repository :
    socios_opts frameVazio = Except.error PdError.keyError ∧
    tipos_opts frameVazio = Except.error PdError.keyError ∧
    bancos_opts frameVazio = none ∧
    anos_opts frameVazio = none ∧
    (∀ s : Selection, apply_filtros_exc frameVazio s = Except.error PdError.keyError) ∧
    total_divida_exc frameVazio [] = Except.error PdError.keyError ∧
    consolidado_exc frameVazio [] = Except.error PdError.keyError ∧
    divida_por_banco_exc frameVazio [] = Except.error PdError.keyError ∧
    (∀ anoSel, grafico_parcelas frameVazio [] anoSel = none) :=
  ⟨rfl, rfl, rfl, rfl, fun _ => rfl, rfl, rfl, rfl, fun _ => rfl⟩

/-- Repository whose single record has no banco key at all, so the lender
dimension is absent and the banco filter does not exist. -/
def cOito : Frame := preparar_dados (some [rawSoCampos])

/-- The sidebar's selection for `cOito`: no banco filter and no ano filter,
because neither column exists. -/
def sOito : Selection :=
  { filtro_socio := ["Ana"]
    filtro_contrato := ["Credito Rural"]
    filtro_banco := none
    filtro_ano := none }

/-- Counterexample to claim C8 as stated: in the only reachable situation in
which a record of the view lacks a lender, the lender dimension is absent from
the dataset, and there the banco aggregation raises KeyError instead of
returning a mapping whose value sum could be compared with the grand total. -/
theorem C8_counterexample :
    normalizeRec rawSoCampos ∈ apply_filtros cOito sOito ∧
    (normalizeRec rawSoCampos).banco = none ∧
    divida_por_banco_exc cOito (apply_filtros cOito sOito) = Except.error PdError.keyError ∧
    total_divida (apply_filtros cOito sOito) = 5 := by
  refine ⟨by decide, by decide, by decide, ?_⟩
  have hview : apply_filtros cOito sOito = [normalizeRec rawSoCampos] := by decide
  rw [hview]
  unfold total_divida
  rw [List.map_cons, List.map_nil, List.sum_cons, List.sum_nil]
  norm_num [valorOf, normalizeRec, rawSoCampos]

/-- Claim C8 (amended): the lender-total sum equals the grand total whenever
every record of the view carries a lender, which holds for every view produced
with an active lender filter; when the dataset lacks the lender dimension the
banco aggregation raises KeyError instead of returning a mapping. -/
theorem C8_lender_sum (c : Frame) (s : Selection) :
    (∀ view : List Rec, (∀ r ∈ view, r.banco.isSome = true) →
      ((divida_por_banco view).map (fun p => p.2)).sum = total_divida view) ∧
    (∀ bs, s.filtro_banco = some bs → ∀ r ∈ apply_filtros c s, r.banco.isSome = true) ∧
    (c.hasBanco = false →
      divida_por_banco_exc c (apply_filtros c s) = Except.error PdError.keyError) := by
  refine ⟨?_, fun bs hbs r hr => apply_banco_isSome hbs hr, ?_⟩
  · intro view hview
    rw [divida_por_banco_values_sum, List.filter_eq_self.mpr hview]
    rfl
  · intro h
    unfold divida_por_banco_exc
    rw [h]
    rfl

/-- Witness for the amended C8: the equality at a one-record all-lender view
and the KeyError on the lender-free repository. -/
theorem C8_lender_sum_witness :
    ((divida_por_banco [normalizeRec rawBoa]).map (fun p => p.2)).sum
        = total_divida [normalizeRec rawBoa] ∧
    divida_por_banco_exc cOito (apply_filtros cOito sOito) = Except.error PdError.keyError :=
  ⟨(C8_lender_sum cOito sOito).1 [normalizeRec rawBoa] (by decide),
   (C8_lender_sum cOito sOito).2.2 (by decide)⟩

/-- A second contract of the same partner as `rawBoa`, missing `valorTotal`
but passing every filter. -/
def rawSemValorAna : RawRec :=
  { socioResponsavel := some "Ana"
    banco := some "Banco Alfa"
    tipoContrato := some "Credito Rural"
    numeroContrato := some "C-005"
    valorTotal := none
    dataContratacao := some "2022-06-01"
    vencimentoContrato := some "2024-06-01" }

/-- Repository holding a full record beside a record of the same partner that
is missing `valorTotal` but passes every filter. -/
def cNove : Frame := preparar_dados (some [rawBoa, rawSemValorAna])

/-- The sidebar's default selection for `cNove`. -/
def sNove : Selection :=
  { filtro_socio := ["Ana"]
    filtro_contrato := ["Credito Rural"]
    filtro_banco := some ["Banco Alfa"]
    filtro_ano := some [2022] }

/-- Counterexample to claim C9 as stated: a record with a NaN `valorTotal`
reaches the view, the `count` aggregation counts only non-null cells, and the
row counts sum to one while the view has two records. -/
theorem C9_counterexample :
    (apply_filtros cNove sNove).length = 2 ∧
    ((consolidado (apply_filtros cNove sNove)).map (fun row => row.2.1)).sum = 1 ∧
    ((consolidado (apply_filtros cNove sNove)).map (fun row => row.2.1)).sum
      ≠ (apply_filtros cNove sNove).length := by
  decide

/-- Claim C9 (amended): on a filtered view all of whose records carry
`valorTotal`, the consolidated table has one row per distinct partner of the
view, in ascending partner order independent of input order, with the row
count the number of that partner's records and the row total their amount sum;
consequently the row counts sum to the size of the view. -/
theorem C9_consolidation (c : Frame) (s : Selection)
    (hval : ∀ r ∈ apply_filtros c s, r.valorTotal.isSome = true) :
    ((consolidado (apply_filtros c s)).map (fun row => row.1)).Sorted (fun a b => a ≤ b) ∧
    ((consolidado (apply_filtros c s)).map (fun row => row.1)).Nodup ∧
    (∀ p, p ∈ (consolidado (apply_filtros c s)).map (fun row => row.1) ↔
      ∃ q ∈ apply_filtros c s, q.socioResponsavel = some p) ∧
    (∀ row ∈ consolidado (apply_filtros c s),
      row.2.1 = ((apply_filtros c s).filter
          (fun r => decide (r.socioResponsavel = some row.1))).length ∧
      row.2.2 = (((apply_filtros c s).filter
          (fun r => decide (r.socioResponsavel = some row.1))).map valorOf).sum) ∧
    ((consolidado (apply_filtros c s)).map (fun row => row.2.1)).sum
      = (apply_filtros c s).length := by
  refine ⟨?_, ?_, fun p => mem_consolidado_keys, ?_, ?_⟩
  · rw [consolidado_keys]
    exact sorted_sortedDedup _
  · rw [consolidado_keys]
    exact nodup_sortedDedup _
  · intro row hrow
    have h := consolidado_row hrow
    refine ⟨?_, h.2⟩
    rw [h.1]
    apply List.countP_eq_length.mpr
    intro r hr
    exact hval r (List.mem_of_mem_filter hr)
  · rw [consolidado_count_sum, apply_filter_socio]
    exact List.countP_eq_length.mpr hval

/-- Witness for the amended C9 at the concrete one-record repository with its
default selection. -/
theorem C9_consolidation_witness :
    ((consolidado (apply_filtros cUm sUm)).map (fun row => row.1)).Sorted (fun a b => a ≤ b) ∧
    ((consolidado (apply_filtros cUm sUm)).map (fun row => row.1)).Nodup ∧
    (∀ p, p ∈ (consolidado (apply_filtros cUm sUm)).map (fun row => row.1) ↔
      ∃ q ∈ apply_filtros cUm sUm, q.socioResponsavel = some p) ∧
    (∀ row ∈ consolidado (apply_filtros cUm sUm),
      row.2.1 = ((apply_filtros cUm sUm).filter
          (fun r => decide (r.socioResponsavel = some row.1))).length ∧
      row.2.2 = (((apply_filtros cUm sUm).filter
          (fun r => decide (r.socioResponsavel = some row.1))).map valorOf).sum) ∧
    ((consolidado (apply_filtros cUm sUm)).map (fun row => row.2.1)).sum
      = (apply_filtros cUm sUm).length :=
  C9_consolidation cUm sUm (by decide)

/-- Claim C10: the consolidated row totals sum to the grand total of the same
filtered view; partner grouping partitions the view because every record that
passes the filter carries a partner. -/
theorem C10_partner_totals (c : Frame) (s : Selection) :
    ((consolidado (apply_filtros c s)).map (fun row => row.2.2)).sum
      = total_divida (apply_filtros c s) := by
  rw [consolidado_total_sum, apply_filter_socio]
  rfl
